import Mathlib

/-!
Shallow embedding of the gregsantos/nexturbo starter repository.

Each definition below is translated from one place in the TypeScript
source; the place is named in the doc comment.  Environments
(`process.env`) are modelled as total functions `String → Option String`
(a variable is either unset, `none`, or set to a string).  Thrown
JavaScript values are modelled by the inductive `Thrown`: either an
`Error` object carrying a message, or any other value.
-/

/-! ## C1 — dashboard layout session gate
Source: `app/dashboard/layout.tsx` (src/unnamed/part_002). -/

/-- User object carried by a session, per the `user` table schema
(`lib/server/db/schema/users.ts`). -/
structure SessionUser where
  id : String
  name : String
  email : String
  emailVerified : Bool
  image : Option String
deriving DecidableEq, Repr

/-- Session object returned by `auth.api.getSession`: the fields the
layout uses (`session.user`) plus the expiry carried by the `session`
table row. -/
structure AuthSession where
  user : SessionUser
  expiresAt : Nat
deriving DecidableEq, Repr

/-- Result of rendering the dashboard layout: either a redirect response
or the rendered page (navigation fed with the session user, plus the
page children, abstracted as a string). -/
inductive LayoutResponse where
  | redirect (location : String)
  | page (navUser : SessionUser) (children : String)
deriving DecidableEq, Repr

/-- The `DashboardLayout` from `app/dashboard/layout.tsx`: fetch the session
from request headers; if falsy (`null`), `redirect("/auth/signin")`;
otherwise render `DashboardNav` with `session.user` and the children. -/
def dashboardLayout (session : Option AuthSession) (children : String) :
    LayoutResponse :=
  match session with
  | none => LayoutResponse.redirect "/auth/signin"
  | some s => LayoutResponse.page s.user children

/-! ## C2 — server-side feature-flag resolution
Source: `lib/feature-flags.ts` (embedded in
src/apps/web/lib/utils.test.ts): `featureFlagsSchema`, `envOverrides`,
`getAllFeatureFlags`, `getFeature`. -/

/-- Environment: `process.env` as a partial map from variable names to
string values. -/
def Env : Type := String → Option String

/-- The feature-flag names declared by `featureFlagsSchema`. -/
inductive FeatureFlag where
  | socialAuth
  | emailVerificationRequired
  | twoFactorAuth
  | dashboardAnalytics
  | dashboardCharts
  | dashboardNotifications
  | userProfileEditing
  | userAvatarUpload
  | userDarkMode
  | experimentalFeatureA
  | experimentalFeatureB
  | enableCaching
  | enableAnalytics
  | maintenanceMode
  | readOnlyMode
deriving DecidableEq, Repr

/-- The record of all feature-flag values (`FeatureFlags` =
`z.infer<typeof featureFlagsSchema>`). -/
structure FeatureFlags where
  socialAuth : Bool
  emailVerificationRequired : Bool
  twoFactorAuth : Bool
  dashboardAnalytics : Bool
  dashboardCharts : Bool
  dashboardNotifications : Bool
  userProfileEditing : Bool
  userAvatarUpload : Bool
  userDarkMode : Bool
  experimentalFeatureA : Bool
  experimentalFeatureB : Bool
  enableCaching : Bool
  enableAnalytics : Bool
  maintenanceMode : Bool
  readOnlyMode : Bool
deriving DecidableEq, Repr

/-- Indexing `flags[flag]` on a `FeatureFlags` record. -/
def flagValue (f : FeatureFlags) : FeatureFlag → Bool
  | .socialAuth => f.socialAuth
  | .emailVerificationRequired => f.emailVerificationRequired
  | .twoFactorAuth => f.twoFactorAuth
  | .dashboardAnalytics => f.dashboardAnalytics
  | .dashboardCharts => f.dashboardCharts
  | .dashboardNotifications => f.dashboardNotifications
  | .userProfileEditing => f.userProfileEditing
  | .userAvatarUpload => f.userAvatarUpload
  | .userDarkMode => f.userDarkMode
  | .experimentalFeatureA => f.experimentalFeatureA
  | .experimentalFeatureB => f.experimentalFeatureB
  | .enableCaching => f.enableCaching
  | .enableAnalytics => f.enableAnalytics
  | .maintenanceMode => f.maintenanceMode
  | .readOnlyMode => f.readOnlyMode

/-- Defaults `featureFlagsSchema.parse({})`: the record of static defaults
declared with `.default(...)` in the schema. -/
def featureFlagsDefaults : FeatureFlags where
  socialAuth := false
  emailVerificationRequired := true
  twoFactorAuth := false
  dashboardAnalytics := true
  dashboardCharts := true
  dashboardNotifications := false
  userProfileEditing := true
  userAvatarUpload := false
  userDarkMode := true
  experimentalFeatureA := false
  experimentalFeatureB := false
  enableCaching := true
  enableAnalytics := true
  maintenanceMode := false
  readOnlyMode := false

/-- Overrides `envOverrides`: the `Partial<FeatureFlags>` map computed from the
environment.  The four listed keys are always present (the strict
comparisons always yield a boolean); every other key is absent. -/
def envOverrides (env : Env) : FeatureFlag → Option Bool
  | .socialAuth => some (env "NEXT_PUBLIC_FEATURE_SOCIAL_AUTH" == some "true")
  | .twoFactorAuth => some (env "NEXT_PUBLIC_FEATURE_2FA" == some "true")
  | .maintenanceMode => some (env "NEXT_PUBLIC_MAINTENANCE_MODE" == some "true")
  | .enableAnalytics => some (env "NEXT_PUBLIC_ENABLE_ANALYTICS" != some "false")
  | _ => none

/-- The object spread `{...defaults, ...overrides}`: every key present
in the override map wins, every other key keeps the base value. -/
def spreadOverride (base : FeatureFlags) (ov : FeatureFlag → Option Bool) :
    FeatureFlags where
  socialAuth := (ov .socialAuth).getD base.socialAuth
  emailVerificationRequired :=
    (ov .emailVerificationRequired).getD base.emailVerificationRequired
  twoFactorAuth := (ov .twoFactorAuth).getD base.twoFactorAuth
  dashboardAnalytics := (ov .dashboardAnalytics).getD base.dashboardAnalytics
  dashboardCharts := (ov .dashboardCharts).getD base.dashboardCharts
  dashboardNotifications :=
    (ov .dashboardNotifications).getD base.dashboardNotifications
  userProfileEditing := (ov .userProfileEditing).getD base.userProfileEditing
  userAvatarUpload := (ov .userAvatarUpload).getD base.userAvatarUpload
  userDarkMode := (ov .userDarkMode).getD base.userDarkMode
  experimentalFeatureA :=
    (ov .experimentalFeatureA).getD base.experimentalFeatureA
  experimentalFeatureB :=
    (ov .experimentalFeatureB).getD base.experimentalFeatureB
  enableCaching := (ov .enableCaching).getD base.enableCaching
  enableAnalytics := (ov .enableAnalytics).getD base.enableAnalytics
  maintenanceMode := (ov .maintenanceMode).getD base.maintenanceMode
  readOnlyMode := (ov .readOnlyMode).getD base.readOnlyMode

/-- Merge `getAllFeatureFlags()`: `{...featureFlagsSchema.parse({}),
...envOverrides}`. -/
def getAllFeatureFlags (env : Env) : FeatureFlags :=
  spreadOverride featureFlagsDefaults (envOverrides env)

/-- Lookup `getFeature(flag)`: look the flag up in the merged record. -/
def getFeature (env : Env) (flag : FeatureFlag) : Bool :=
  flagValue (getAllFeatureFlags env) flag

/-! ## C3 — startup environment validation
Source: `lib/env.ts` (src/unnamed/part_016): `envSchema` and the
`envSchema.parse({...})` call.  The zod combinators used by the schema
are modelled below; URL validity (zod delegates it to the runtime URL
parser) is an abstract boolean predicate passed as a parameter. -/

/-- zod `z.string().url()` applied to an optional input: fails when the
variable is unset or the URL check rejects it. -/
def zodStringUrl (isUrl : String → Bool) (v : Option String) : Option String :=
  match v with
  | none => none
  | some s => if isUrl s then some s else none

/-- zod `z.string().min(n)` applied to an optional input: fails when the
variable is unset or shorter than `n` characters. -/
def zodStringMin (n : Nat) (v : Option String) : Option String :=
  match v with
  | none => none
  | some s => if n ≤ s.length then some s else none

/-- The three values accepted by `z.enum(["development", "production",
"test"])`. -/
def nodeEnvValues : List String := ["development", "production", "test"]

/-- zod `z.enum(["development", "production", "test"])
.default("development")` applied to an optional input: an unset variable
becomes `"development"`; a set variable must be one of the three. -/
def zodNodeEnv (v : Option String) : Option String :=
  match v with
  | none => some "development"
  | some s => if s ∈ nodeEnvValues then some s else none

/-- The record produced by a successful `envSchema.parse`. -/
structure ParsedEnv where
  DATABASE_URL : String
  NEXT_PUBLIC_APP_URL : String
  BETTER_AUTH_SECRET : String
  BETTER_AUTH_URL : String
  NODE_ENV : String
deriving DecidableEq, Repr

/-- The call `envSchema.parse({DATABASE_URL: process.env.DATABASE_URL, ...})`
from `lib/env.ts`.  `none` models the parse throwing.  Exactly the five
listed variables are read: nothing else in the environment — in
particular no `NEXT_PUBLIC_FEATURE_*` toggle — is looked at. -/
def envParse (isUrl : String → Bool) (env : Env) : Option ParsedEnv :=
  match zodStringUrl isUrl (env "DATABASE_URL"),
        zodStringUrl isUrl (env "NEXT_PUBLIC_APP_URL"),
        zodStringMin 32 (env "BETTER_AUTH_SECRET"),
        zodStringUrl isUrl (env "BETTER_AUTH_URL"),
        zodNodeEnv (env "NODE_ENV") with
  | some d, some a, some s, some u, some n =>
    some { DATABASE_URL := d, NEXT_PUBLIC_APP_URL := a,
           BETTER_AUTH_SECRET := s, BETTER_AUTH_URL := u, NODE_ENV := n }
  | _, _, _, _, _ => none

/-- Concrete stand-in URL validator used for concrete evaluations:
accepts exactly the two URLs occurring in the concrete environments
below. -/
def sampleIsUrl (s : String) : Bool :=
  s == "postgres://localhost:5432/db" || s == "http://localhost:3000"

/-- Concrete environment in which the five schema-checked variables are
valid and every `NEXT_PUBLIC_FEATURE_*` / `NEXT_PUBLIC_*` feature toggle
is set to a garbage value that is neither `"true"` nor `"false"`. -/
def garbageToggleEnv : Env := fun k =>
  if k = "DATABASE_URL" then some "postgres://localhost:5432/db"
  else if k = "NEXT_PUBLIC_APP_URL" then some "http://localhost:3000"
  else if k = "BETTER_AUTH_SECRET" then
    some "0123456789abcdef0123456789abcdef"
  else if k = "BETTER_AUTH_URL" then some "http://localhost:3000"
  else if k = "NODE_ENV" then some "development"
  else if k = "NEXT_PUBLIC_FEATURE_SOCIAL_AUTH" then some "garbage"
  else if k = "NEXT_PUBLIC_FEATURE_2FA" then some "garbage"
  else if k = "NEXT_PUBLIC_MAINTENANCE_MODE" then some "garbage"
  else if k = "NEXT_PUBLIC_ENABLE_ANALYTICS" then some "garbage"
  else none

/-- Variant of `garbageToggleEnv` with all four feature toggles unset. -/
def noToggleEnv : Env := fun k =>
  if k = "DATABASE_URL" then some "postgres://localhost:5432/db"
  else if k = "NEXT_PUBLIC_APP_URL" then some "http://localhost:3000"
  else if k = "BETTER_AUTH_SECRET" then
    some "0123456789abcdef0123456789abcdef"
  else if k = "BETTER_AUTH_URL" then some "http://localhost:3000"
  else if k = "NODE_ENV" then some "development"
  else none

/-- A concrete environment with all five schema variables valid except
that NODE_ENV is unset. -/
def unsetNodeEnv : Env := fun k =>
  if k = "DATABASE_URL" then some "postgres://localhost:5432/db"
  else if k = "NEXT_PUBLIC_APP_URL" then some "http://localhost:3000"
  else if k = "BETTER_AUTH_SECRET" then
    some "0123456789abcdef0123456789abcdef"
  else if k = "BETTER_AUTH_URL" then some "http://localhost:3000"
  else none

/-! ## C4 / C9 — form-submission boundaries
Source: `components/auth/reset-password-form.tsx`
(`ResetPasswordForm.onSubmit`) and
`components/auth/forgot-password-form.tsx`
(`ForgotPasswordForm.onSubmit`). -/

/-- A thrown JavaScript value: an `Error` object with a message, or any
other value (`instanceof Error` is false). -/
inductive Thrown where
  | errorObj (message : String)
  | otherValue
deriving DecidableEq, Repr

/-- Component state observable after `ResetPasswordForm.onSubmit`
returns: the `error` and `isLoading` states, whether
`authClient.resetPassword` was invoked, and the route pushed on
success. -/
structure ResetFormState where
  error : Option String
  isLoading : Bool
  calledReset : Bool
  pushedRoute : Option String
deriving DecidableEq, Repr

/-- JavaScript falsiness of a `string | null` value, as tested by
`if (!token)`: `null` and the empty string are falsy (and
`searchParams.get("token")` returns `""` for `?token=`). -/
def jsFalsy (o : Option String) : Bool :=
  match o with
  | none => true
  | some s => s == ""

/-- Handler `ResetPasswordForm.onSubmit`: set loading, clear the error,
guard with `if (!token)` (which also catches an empty-string token) and
on the two password fields matching, then call
`authClient.resetPassword` inside `try/catch/finally`.  `outcome` is
the result of that underlying call (`Except.error` models it throwing);
the function being total models that no exception escapes the
handler. -/
def resetOnSubmit (token : Option String) (password confirmPassword : String)
    (outcome : Except Thrown Unit) : ResetFormState :=
  let st : ResetFormState :=
    { error := none, isLoading := true, calledReset := false,
      pushedRoute := none }
  if jsFalsy token then
    { st with error := some "Invalid or missing reset token",
              isLoading := false }
  else if password ≠ confirmPassword then
    { st with error := some "Passwords do not match", isLoading := false }
  else
    match outcome with
    | Except.ok _ =>
      { st with calledReset := true,
                pushedRoute := some "/auth/signin?reset=success",
                isLoading := false }
    | Except.error t =>
      { st with calledReset := true,
                error := some (match t with
                  | Thrown.errorObj m => m
                  | Thrown.otherValue => "Failed to reset password"),
                isLoading := false }

/-- Component state observable after `ForgotPasswordForm.onSubmit`
returns. -/
structure ForgotFormState where
  error : Option String
  isLoading : Bool
  emailSent : Bool
  email : String
deriving DecidableEq, Repr

/-- Handler `ForgotPasswordForm.onSubmit`: set loading, clear the error, record
the email, call `authClient.forgetPassword` inside
`try/catch/finally`. -/
def forgotOnSubmit (emailValue : String) (outcome : Except Thrown Unit) :
    ForgotFormState :=
  match outcome with
  | Except.ok _ =>
    { error := none, isLoading := false, emailSent := true,
      email := emailValue }
  | Except.error t =>
    { error := some (match t with
        | Thrown.errorObj m => m
        | Thrown.otherValue => "Failed to send reset email"),
      isLoading := false, emailSent := false, email := emailValue }

/-! ## C5 / C6 — theme provider
Source: `components/shared/theme-provider.tsx`.  The theme state is a
runtime string (the TypeScript annotation `"light" | "dark"` is a cast,
not a check), the storage key holds `Option String`
(`localStorage.getItem` returns `string | null`) and the document root
class list is a `List String`. -/

/-- DOM `classList.add`: appends the class when not already present. -/
def classListAdd (cs : List String) (c : String) : List String :=
  if c ∈ cs then cs else cs ++ [c]

/-- DOM `classList.remove`: removes the class. -/
def classListRemove (cs : List String) (c : String) : List String :=
  cs.filter (fun x => x ≠ c)

/-- The class synchronization block shared by the mount effect and
`toggleTheme`: `if (t === "dark") {add "dark"; remove "light"} else
{add "light"; remove "dark"}`. -/
def applyThemeClasses (t : String) (cs : List String) : List String :=
  if t == "dark" then classListRemove (classListAdd cs "dark") "light"
  else classListRemove (classListAdd cs "light") "dark"

/-- JavaScript `s || d` on a `string | null` value: `null` and the empty
string are falsy. -/
def jsOrDefault (o : Option String) (d : String) : String :=
  match o with
  | none => d
  | some s => if s == "" then d else s

/-- State produced by the provider's mount effect. -/
structure ThemeInitResult where
  theme : String
  rootClasses : List String
deriving DecidableEq, Repr

/-- The `useEffect` that runs on mount: read the storage key, apply the
`|| "dark"` fallback, install the result as the theme state and sync
the root classes. -/
def themeInitEffect (saved : Option String) (rootClasses : List String) :
    ThemeInitResult :=
  let effectiveTheme := jsOrDefault saved "dark"
  { theme := effectiveTheme,
    rootClasses := applyThemeClasses effectiveTheme rootClasses }

/-- State produced by one `toggleTheme` call. -/
structure ToggleResult where
  theme : String
  storage : Option String
  rootClasses : List String
deriving DecidableEq, Repr

/-- Function `toggleTheme` from the provider: flip the theme, write it to the
storage key, and sync the root classes. -/
def toggleTheme (theme : String) (rootClasses : List String) : ToggleResult :=
  let newTheme := if theme == "dark" then "light" else "dark"
  { theme := newTheme, storage := some newTheme,
    rootClasses := applyThemeClasses newTheme rootClasses }

/-- Hook `useTheme`: read the context; if it is absent throw
`"useTheme must be used within ThemeProvider"`, else return it
unchanged.  Generic in the context value type, as `useContext` is. -/
def useTheme {α : Type} (ctx : Option α) : Except String α :=
  match ctx with
  | none => Except.error "useTheme must be used within ThemeProvider"
  | some v => Except.ok v

/-! ## C7 — logger redaction
Source: `lib/server/logger.ts`: the `redact: {paths: [...], remove:
true}` configuration handed to pino.  Log records are modelled as JSON
values; pino's `remove: true` redaction deletes the object key at each
configured path. -/

/-- A JSON value of a structured log record. -/
inductive JVal where
  | jnull
  | jbool (b : Bool)
  | jnum (n : Int)
  | jstr (s : String)
  | jobj (fields : List (String × JVal))

/-- The redaction paths configured on the logger, split on `"."`. -/
def redactPaths : List (List String) :=
  [["req", "headers", "authorization"],
   ["req", "headers", "cookie"],
   ["password"],
   ["token"],
   ["apiKey"],
   ["secret"]]

/-- Remove the object key at one redaction path (`remove: true`
semantics): descend along the path and delete the final key.  A path
step through a non-object, or an empty path, changes nothing. -/
def removePath : List String → JVal → JVal
  | [], v => v
  | [k], JVal.jobj fs => JVal.jobj (fs.filter (fun p => p.1 ≠ k))
  | k :: k2 :: rest, JVal.jobj fs =>
    JVal.jobj (fs.map (fun p =>
      if p.1 = k then (p.1, removePath (k2 :: rest) p.2) else p))
  | _ :: _, v => v

/-- Apply every configured redaction path to a record before it is
written. -/
def redactRecord (v : JVal) : JVal :=
  redactPaths.foldl (fun acc p => removePath p acc) v

/-- Look a dotted path up in a JSON value. -/
def getPath : JVal → List String → Option JVal
  | v, [] => some v
  | JVal.jobj fs, k :: rest =>
    match fs.find? (fun p => p.1 = k) with
    | some p => getPath p.2 rest
    | none => none
  | _, _ :: _ => none

/-! ## C8 — cascade delete on the auth tables
Source: `lib/server/db/schema/users.ts`, `sessions.ts`, `accounts.ts`
(src/unnamed/part_015): the `references(() => users.id, {onDelete:
"cascade"})` declarations, combined with PostgreSQL's semantics for a
declared `ON DELETE` action. -/

/-- A row of the `user` table. -/
structure UserRow where
  id : String
  name : String
  email : String
  emailVerified : Bool
  image : Option String
  createdAt : Nat
  updatedAt : Nat
deriving DecidableEq, Repr

/-- A row of the `session` table. -/
structure SessionRow where
  id : String
  expiresAt : Nat
  token : String
  createdAt : Nat
  updatedAt : Nat
  ipAddress : Option String
  userAgent : Option String
  userId : String
deriving DecidableEq, Repr

/-- A row of the `account` table. -/
structure AccountRow where
  id : String
  accountId : String
  providerId : String
  userId : String
  accessToken : Option String
  refreshToken : Option String
  idToken : Option String
  accessTokenExpiresAt : Option Nat
  refreshTokenExpiresAt : Option Nat
  scope : Option String
  password : Option String
  createdAt : Nat
  updatedAt : Nat
deriving DecidableEq, Repr

/-- The `ON DELETE` actions a foreign key can declare. -/
inductive OnDeleteAction where
  | cascade
  | noAction
  | restrict
  | setNull
  | setDefault
deriving DecidableEq, Repr

/-- A declared foreign-key reference: target table, target column, and
the declared `ON DELETE` action. -/
structure ForeignKeyRef where
  table : String
  column : String
  onDelete : OnDeleteAction
deriving DecidableEq, Repr

/-- Column `sessions.userId`: `.references(() => users.id, {onDelete:
"cascade"})`. -/
def sessionsUserIdRef : ForeignKeyRef :=
  { table := "user", column := "id", onDelete := OnDeleteAction.cascade }

/-- Column `accounts.userId`: `.references(() => users.id, {onDelete:
"cascade"})`. -/
def accountsUserIdRef : ForeignKeyRef :=
  { table := "user", column := "id", onDelete := OnDeleteAction.cascade }

/-- The persisted database state over the three FK-related tables. -/
structure Db where
  users : List UserRow
  sessions : List SessionRow
  accounts : List AccountRow
deriving DecidableEq, Repr

/-- PostgreSQL semantics of a declared `ON DELETE` action on the child
rows whose FK column equals the deleted parent key: `cascade` deletes
them, the other actions leave them in place (or would reject / null the
column — none of which removes other rows). -/
def applyOnDelete {ρ : Type} (ref : ForeignKeyRef) (fkColumn : ρ → String)
    (deletedKey : String) (rows : List ρ) : List ρ :=
  match ref.onDelete with
  | OnDeleteAction.cascade => rows.filter (fun r => fkColumn r ≠ deletedKey)
  | _ => rows

/-- Deleting a user row: the user row goes, and each child table reacts
according to its declared `ON DELETE` action. -/
def deleteUser (db : Db) (uid : String) : Db where
  users := db.users.filter (fun u => u.id ≠ uid)
  sessions := applyOnDelete sessionsUserIdRef SessionRow.userId uid db.sessions
  accounts := applyOnDelete accountsUserIdRef AccountRow.userId uid db.accounts

/-- Referential integrity of the two FK constraints: every session and
every account row references an existing user. -/
def refIntegrity (db : Db) : Prop :=
  (∀ s ∈ db.sessions, ∃ u ∈ db.users, u.id = s.userId) ∧
  (∀ a ∈ db.accounts, ∃ u ∈ db.users, u.id = a.userId)

instance (db : Db) : Decidable (refIntegrity db) := by
  unfold refIntegrity
  infer_instance

/-! ## C10 — the two `Container` implementations
Source: `components/shared/container.tsx` (src/unnamed/part_012: the
`sizeClasses` map version) and the `Container` in src/unnamed/part_011
(the conditional-object version).  `cn` is `twMerge(clsx(inputs))`;
`twMerge` is kept abstract, `clsx` is modelled on the input shapes the
two components use (class strings, objects of boolean-valued keys, and
an optional/undefined argument). -/

/-- A `clsx` argument as used by the two `Container`s. -/
inductive ClassValue where
  | str (s : String)
  | obj (pairs : List (String × Bool))
  | undef
deriving DecidableEq, Repr

/-- Semantics of `clsx` on one argument: a non-empty string stands for itself, an
object contributes the keys whose value is truthy, `undefined`
contributes nothing. -/
def clsxValue : ClassValue → List String
  | ClassValue.str s => if s == "" then [] else [s]
  | ClassValue.obj ps => (ps.filter (fun p => p.2)).map (fun p => p.1)
  | ClassValue.undef => []

/-- Full `clsx(...inputs)`: space-join the contributions. -/
def clsx (vs : List ClassValue) : String :=
  String.intercalate " " (vs.flatMap clsxValue)

/-- Utility `cn(...inputs) = twMerge(clsx(inputs))` from `lib/utils.ts`. -/
def cn (twMerge : String → String) (vs : List ClassValue) : String :=
  twMerge (clsx vs)

/-- The `size` prop of `Container`. -/
inductive ContainerSize where
  | default
  | narrow
  | wide
  | full
deriving DecidableEq, Repr

/-- The optional `className` prop as a `clsx` argument. -/
def classNameValue (className : Option String) : ClassValue :=
  match className with
  | some c => ClassValue.str c
  | none => ClassValue.undef

/-- The `sizeClasses` map of the first `Container`
(src/unnamed/part_012). -/
def sizeClasses : ContainerSize → String
  | ContainerSize.default => "max-w-7xl"
  | ContainerSize.narrow => "max-w-3xl"
  | ContainerSize.wide => "max-w-[1400px]"
  | ContainerSize.full => "max-w-none"

/-- Class string computed by the first `Container`:
`cn("mx-auto w-full px-4 sm:px-6 lg:px-8", sizeClasses[size],
className)`. -/
def containerClassMap (twMerge : String → String) (size : ContainerSize)
    (className : Option String) : String :=
  cn twMerge
    [ClassValue.str "mx-auto w-full px-4 sm:px-6 lg:px-8",
     ClassValue.str (sizeClasses size),
     classNameValue className]

/-- Class string computed by the second `Container`
(src/unnamed/part_011): `cn(base, {"max-w-7xl": size === "default",
...}, className)`. -/
def containerClassCond (twMerge : String → String) (size : ContainerSize)
    (className : Option String) : String :=
  cn twMerge
    [ClassValue.str "mx-auto w-full px-4 sm:px-6 lg:px-8",
     ClassValue.obj
       [("max-w-7xl", size == ContainerSize.default),
        ("max-w-3xl", size == ContainerSize.narrow),
        ("max-w-[1400px]", size == ContainerSize.wide),
        ("max-w-none", size == ContainerSize.full)],
     classNameValue className]

/-- A concrete database state used for concrete evaluations: one user
owning one session and one account, and a second user with no
children. -/
def sampleDb : Db where
  users :=
    [{ id := "u1", name := "Ada", email := "ada@example.com",
       emailVerified := true, image := none, createdAt := 0,
       updatedAt := 0 },
     { id := "u2", name := "Grace", email := "grace@example.com",
       emailVerified := false, image := none, createdAt := 0,
       updatedAt := 0 }]
  sessions :=
    [{ id := "s1", expiresAt := 100, token := "tok1", createdAt := 0,
       updatedAt := 0, ipAddress := none, userAgent := none,
       userId := "u1" }]
  accounts :=
    [{ id := "a1", accountId := "acc1", providerId := "credential",
       userId := "u1", accessToken := none, refreshToken := none,
       idToken := none, accessTokenExpiresAt := none,
       refreshTokenExpiresAt := none, scope := none,
       password := some "hashed", createdAt := 0, updatedAt := 0 }]

/-!
## Theorems

One theorem per claim of the specification, preceded where needed by
shared helper lemmas.
-/

/-- Claim C1: for every request to the protected dashboard route, the
layout fetches the current session; if the session is absent the
response is a redirect to /auth/signin, and if a session is present the
layout renders the navigation with the session's user and the page
children without redirecting. -/
theorem c1_dashboard_session_gate :
    (∀ children, dashboardLayout none children =
      LayoutResponse.redirect "/auth/signin") ∧
    (∀ s children, dashboardLayout (some s) children =
      LayoutResponse.page s.user children) ∧
    (∀ s children loc, dashboardLayout (some s) children ≠
      LayoutResponse.redirect loc) := by
  refine ⟨fun _ => rfl, fun _ _ => rfl, ?_⟩
  intro s children loc h
  simp [dashboardLayout] at h

/-- Claim C2: `getFeature` returns the merge of the static default map
with the environment-variable overrides — a flag present in the
override map takes the value computed from its environment variable,
every other flag takes its static schema default. -/
theorem c2_getFeature_merges_defaults_and_overrides :
    ∀ (env : Env) (flag : FeatureFlag),
      getFeature env flag =
        match envOverrides env flag with
        | some b => b
        | none => flagValue featureFlagsDefaults flag := by
  intro env flag
  cases flag <;> rfl

/-- Claim C4: at the password-reset and forgot-password submission
boundaries every exception thrown by the underlying auth-client call is
caught (the handlers are total) and converted into an error string
surfaced to the component: the exception's message when the thrown
value is an `Error`, and the generic fallback message otherwise.  The
reset boundary only reaches its auth-client call for a truthy (present
and non-empty) token with matching password fields, so the thrown
exception is quantified under that premise. -/
theorem c4_action_boundary_catches_exceptions :
    ∀ (tok pw em m : String), tok ≠ "" →
      (resetOnSubmit (some tok) pw pw
          (Except.error (Thrown.errorObj m))).error = some m ∧
      (resetOnSubmit (some tok) pw pw
          (Except.error Thrown.otherValue)).error =
        some "Failed to reset password" ∧
      (forgotOnSubmit em (Except.error (Thrown.errorObj m))).error =
        some m ∧
      (forgotOnSubmit em (Except.error Thrown.otherValue)).error =
        some "Failed to send reset email" := by
  intro tok pw em m htok
  have hf : jsFalsy (some tok) = false := by simp [jsFalsy, htok]
  refine ⟨?_, ?_, rfl, rfl⟩ <;> simp [resetOnSubmit, hf]

/-- Witness for C4 at a concrete input: a thrown `Error` with message
"boom" surfaces as the error string "boom". -/
theorem c4_action_boundary_catches_exceptions_witness :
    ("tok" : String) ≠ "" ∧
    (resetOnSubmit (some "tok") "pw" "pw"
        (Except.error (Thrown.errorObj "boom"))).error = some "boom" :=
  ⟨by decide,
    (c4_action_boundary_catches_exceptions "tok" "pw" "em" "boom"
        (by decide)).1⟩

/-- Claim C6: calling `useTheme` outside a provider (context value
absent) throws exactly the error "useTheme must be used within
ThemeProvider"; under a provider it never throws and returns the
provided context value. -/
theorem c6_useTheme_requires_provider :
    (∀ (α : Type), useTheme (none : Option α) =
      Except.error "useTheme must be used within ThemeProvider") ∧
    (∀ (α : Type) (v : α), useTheme (some v) = Except.ok v) :=
  ⟨fun _ => rfl, fun _ _ => rfl⟩

/-- Claim C9: the reset-password submit handler calls
`authClient.resetPassword` only when a token query parameter is present
(in fact, present and non-empty, since `!token` also rejects the empty
string) and the two password fields agree; when the token is falsy it
sets "Invalid or missing reset token", when the token is truthy and the
passwords differ it sets "Passwords do not match", both without calling
reset; and on every path the loading flag is false when the handler
completes. -/
theorem c9_reset_submit_guards :
    ∀ (token : Option String) (pw cpw : String)
      (out : Except Thrown Unit),
      ((resetOnSubmit token pw cpw out).calledReset = true ↔
        ((∃ t, token = some t ∧ t ≠ "") ∧ pw = cpw)) ∧
      (resetOnSubmit token pw cpw out).isLoading = false ∧
      (token = none ∨ token = some "" →
        (resetOnSubmit token pw cpw out).error =
          some "Invalid or missing reset token" ∧
        (resetOnSubmit token pw cpw out).calledReset = false) ∧
      (∀ t, token = some t → t ≠ "" → pw ≠ cpw →
        (resetOnSubmit token pw cpw out).error =
          some "Passwords do not match" ∧
        (resetOnSubmit token pw cpw out).calledReset = false) := by
  intro token pw cpw out
  cases token with
  | none => simp [resetOnSubmit, jsFalsy]
  | some t =>
    by_cases ht : t = ""
    · subst ht
      simp [resetOnSubmit, jsFalsy]
    · have hf : jsFalsy (some t) = false := by simp [jsFalsy, ht]
      by_cases h : pw = cpw
      · cases out <;> simp [resetOnSubmit, hf, h, ht]
      · simp [resetOnSubmit, hf, h, ht]

/-- Witness for C9 at a concrete input: with a non-empty token present
and differing passwords the handler reports "Passwords do not match"
and performs no reset call. -/
theorem c9_reset_submit_guards_witness :
    (resetOnSubmit (some "tok") "a" "b" (Except.ok ())).error =
      some "Passwords do not match" ∧
    (resetOnSubmit (some "tok") "a" "b" (Except.ok ())).calledReset =
      false :=
  (c9_reset_submit_guards (some "tok") "a" "b"
      (Except.ok ())).2.2.2 "tok" rfl (by decide) (by decide)

/-- Claim C10: the two `Container` implementations — the
`sizeClasses`-map version and the conditional-object version — compute
the same class string for every size, every custom `className`, and
every Tailwind-merge function, so either may replace the other. -/
theorem c10_container_implementations_agree :
    ∀ (twMerge : String → String) (size : ContainerSize)
      (className : Option String),
      containerClassMap twMerge size className =
        containerClassCond twMerge size className := by
  intro twMerge size className
  cases size <;> cases className <;> rfl

/-- Counterexample to claim C3: with the five schema-checked variables
valid, the parse succeeds even though every `NEXT_PUBLIC_FEATURE_*` /
`NEXT_PUBLIC_*` feature toggle is set to a garbage value, and its
result is identical to the parse of the same environment with all
toggles unset — startup validation does not check the feature toggles
at all. -/
theorem c3_counterexample :
    (envParse sampleIsUrl garbageToggleEnv).isSome = true ∧
    envParse sampleIsUrl garbageToggleEnv =
      envParse sampleIsUrl noToggleEnv ∧
    garbageToggleEnv "NEXT_PUBLIC_FEATURE_SOCIAL_AUTH" = some "garbage" ∧
    garbageToggleEnv "NEXT_PUBLIC_FEATURE_2FA" = some "garbage" ∧
    garbageToggleEnv "NEXT_PUBLIC_MAINTENANCE_MODE" = some "garbage" ∧
    garbageToggleEnv "NEXT_PUBLIC_ENABLE_ANALYTICS" = some "garbage" := by
  decide

/-- zod `z.string().url()` fails exactly on an unset variable or a
rejected URL. -/
theorem zodStringUrl_eq_none (isUrl : String → Bool) (v : Option String) :
    zodStringUrl isUrl v = none ↔
      (v = none ∨ ∃ s, v = some s ∧ isUrl s = false) := by
  cases v with
  | none => simp [zodStringUrl]
  | some s => by_cases h : isUrl s <;> simp [zodStringUrl, h]

/-- zod `z.string().min(n)` fails exactly on an unset variable or a
string shorter than `n`. -/
theorem zodStringMin_eq_none (n : Nat) (v : Option String) :
    zodStringMin n v = none ↔
      (v = none ∨ ∃ s, v = some s ∧ s.length < n) := by
  cases v with
  | none => simp [zodStringMin]
  | some s =>
    by_cases h : n ≤ s.length
    · simp [zodStringMin, h]
    · simp [zodStringMin, h]
      omega

/-- The defaulted NODE_ENV enum fails exactly on a set value outside
the enum. -/
theorem zodNodeEnv_eq_none (v : Option String) :
    zodNodeEnv v = none ↔ (∃ s, v = some s ∧ s ∉ nodeEnvValues) := by
  cases v with
  | none => simp [zodNodeEnv]
  | some s => by_cases h : s ∈ nodeEnvValues <;> simp [zodNodeEnv, h]

/-- The parse fails exactly when one of the five field validators
fails. -/
theorem envParse_eq_none (isUrl : String → Bool) (env : Env) :
    envParse isUrl env = none ↔
      (zodStringUrl isUrl (env "DATABASE_URL") = none ∨
       zodStringUrl isUrl (env "NEXT_PUBLIC_APP_URL") = none ∨
       zodStringMin 32 (env "BETTER_AUTH_SECRET") = none ∨
       zodStringUrl isUrl (env "BETTER_AUTH_URL") = none ∨
       zodNodeEnv (env "NODE_ENV") = none) := by
  unfold envParse
  rcases zodStringUrl isUrl (env "DATABASE_URL") with _ | d <;>
    rcases zodStringUrl isUrl (env "NEXT_PUBLIC_APP_URL") with _ | a <;>
    rcases zodStringMin 32 (env "BETTER_AUTH_SECRET") with _ | s <;>
    rcases zodStringUrl isUrl (env "BETTER_AUTH_URL") with _ | u <;>
    rcases zodNodeEnv (env "NODE_ENV") with _ | n <;> simp

/-- Claim C3 as amended: startup validation checks exactly
DATABASE_URL, NEXT_PUBLIC_APP_URL, BETTER_AUTH_SECRET, BETTER_AUTH_URL
and NODE_ENV (not the feature toggles), and the parse fails exactly
when a required URL variable is absent or rejected by the URL check,
BETTER_AUTH_SECRET is absent or shorter than 32 characters, or
NODE_ENV is set to something outside development/production/test;
NODE_ENV absent defaults to "development" and does not fail. -/
theorem c3_env_validation :
    ∀ (isUrl : String → Bool) (env : Env),
      (envParse isUrl env = none ↔
        ((env "DATABASE_URL" = none ∨
            (∃ s, env "DATABASE_URL" = some s ∧ isUrl s = false)) ∨
         (env "NEXT_PUBLIC_APP_URL" = none ∨
            (∃ s, env "NEXT_PUBLIC_APP_URL" = some s ∧ isUrl s = false)) ∨
         (env "BETTER_AUTH_SECRET" = none ∨
            (∃ s, env "BETTER_AUTH_SECRET" = some s ∧ s.length < 32)) ∨
         (env "BETTER_AUTH_URL" = none ∨
            (∃ s, env "BETTER_AUTH_URL" = some s ∧ isUrl s = false)) ∨
         (∃ s, env "NODE_ENV" = some s ∧ s ∉ nodeEnvValues))) ∧
      (env "NODE_ENV" = none →
        ∀ pe, envParse isUrl env = some pe → pe.NODE_ENV = "development") := by
  intro isUrl env
  constructor
  · rw [envParse_eq_none, zodStringUrl_eq_none, zodStringUrl_eq_none,
      zodStringMin_eq_none, zodStringUrl_eq_none, zodNodeEnv_eq_none]
  · intro h pe hpe
    unfold envParse zodNodeEnv at hpe
    rw [h] at hpe
    rcases h1 : zodStringUrl isUrl (env "DATABASE_URL") with _ | d <;>
      rcases h2 : zodStringUrl isUrl (env "NEXT_PUBLIC_APP_URL") with _ | a <;>
      rcases h3 : zodStringMin 32 (env "BETTER_AUTH_SECRET") with _ | s <;>
      rcases h4 : zodStringUrl isUrl (env "BETTER_AUTH_URL") with _ | u <;>
      rw [h1, h2, h3, h4] at hpe <;> simp_all
    rw [← hpe]

/-- Witness for C3 at a concrete input: in a valid environment with
NODE_ENV unset, the parse succeeds and defaults NODE_ENV to
"development". -/
theorem c3_env_validation_witness :
    unsetNodeEnv "NODE_ENV" = none ∧
    ParsedEnv.NODE_ENV
      { DATABASE_URL := "postgres://localhost:5432/db",
        NEXT_PUBLIC_APP_URL := "http://localhost:3000",
        BETTER_AUTH_SECRET := "0123456789abcdef0123456789abcdef",
        BETTER_AUTH_URL := "http://localhost:3000",
        NODE_ENV := "development" } = "development" :=
  ⟨rfl, (c3_env_validation sampleIsUrl unsetNodeEnv).2 rfl
    { DATABASE_URL := "postgres://localhost:5432/db",
      NEXT_PUBLIC_APP_URL := "http://localhost:3000",
      BETTER_AUTH_SECRET := "0123456789abcdef0123456789abcdef",
      BETTER_AUTH_URL := "http://localhost:3000",
      NODE_ENV := "development" } rfl⟩

/-- Counterexample to claim C5: the theme state is not always one of
"light"/"dark" — initializing from the arbitrary stored value
"solarized" installs "solarized" itself as the theme state. -/
theorem c5_counterexample :
    (themeInitEffect (some "solarized") []).theme = "solarized" ∧
    (themeInitEffect (some "solarized") []).theme ≠ "light" ∧
    (themeInitEffect (some "solarized") []).theme ≠ "dark" := by
  refine ⟨rfl, ?_, ?_⟩ <;> decide

/-- Membership in `classList.add`. -/
theorem mem_classListAdd (cs : List String) (c x : String) :
    x ∈ classListAdd cs c ↔ (x ∈ cs ∨ x = c) := by
  unfold classListAdd
  split_ifs with h
  · constructor
    · exact fun hx => Or.inl hx
    · rintro (hx | rfl)
      · exact hx
      · exact h
  · simp

/-- Membership in `classList.remove`. -/
theorem mem_classListRemove (cs : List String) (c x : String) :
    x ∈ classListRemove cs c ↔ (x ∈ cs ∧ x ≠ c) := by
  simp [classListRemove]

/-- After the class-synchronization block, exactly one of the two theme
classes is on the root element: the one equal to the theme that was
applied. -/
theorem applyThemeClasses_sync (t : String) (cs : List String)
    (ht : t = "light" ∨ t = "dark") :
    (("dark" ∈ applyThemeClasses t cs) ↔ t = "dark") ∧
    (("light" ∈ applyThemeClasses t cs) ↔ t = "light") := by
  rcases ht with rfl | rfl <;>
    simp [applyThemeClasses, mem_classListRemove, mem_classListAdd]

/-- Claim C5 as amended: after initialization the theme state is
"light" or "dark" whenever the stored value is absent, empty, "light"
or "dark" (an arbitrary other stored string is installed verbatim, see
the counterexample); and after every toggle the theme is one of the two
values, the storage key equals the new theme, and exactly one of the
classes "light"/"dark" — the one equal to the new theme — is present
on the root element. -/
theorem c5_theme_two_valued_sync :
    (∀ (saved : Option String) (cs : List String),
      (saved = none ∨ saved = some "" ∨ saved = some "light" ∨
        saved = some "dark") →
      ((themeInitEffect saved cs).theme = "light" ∨
        (themeInitEffect saved cs).theme = "dark")) ∧
    (∀ (theme : String) (cs : List String),
      ((toggleTheme theme cs).theme = "light" ∨
        (toggleTheme theme cs).theme = "dark") ∧
      (toggleTheme theme cs).storage = some (toggleTheme theme cs).theme ∧
      (("dark" ∈ (toggleTheme theme cs).rootClasses) ↔
        (toggleTheme theme cs).theme = "dark") ∧
      (("light" ∈ (toggleTheme theme cs).rootClasses) ↔
        (toggleTheme theme cs).theme = "light")) := by
  constructor
  · rintro saved cs (rfl | rfl | rfl | rfl) <;>
      simp [themeInitEffect, jsOrDefault]
  · intro theme cs
    have htwo : (toggleTheme theme cs).theme = "light" ∨
        (toggleTheme theme cs).theme = "dark" := by
      by_cases h : theme == "dark" <;> simp [toggleTheme, h]
    refine ⟨htwo, ?_, ?_, ?_⟩
    · by_cases h : theme == "dark" <;> simp [toggleTheme, h]
    · have := (applyThemeClasses_sync (toggleTheme theme cs).theme cs htwo).1
      by_cases h : theme == "dark" <;> simp_all [toggleTheme]
    · have := (applyThemeClasses_sync (toggleTheme theme cs).theme cs htwo).2
      by_cases h : theme == "dark" <;> simp_all [toggleTheme]

/-- Witness for C5 at a concrete input: initializing from the stored
value "light" yields a two-valued theme. -/
theorem c5_theme_two_valued_sync_witness :
    (themeInitEffect (some "light") ["dark"]).theme = "light" ∨
      (themeInitEffect (some "light") ["dark"]).theme = "dark" :=
  c5_theme_two_valued_sync.1 (some "light") ["dark"]
    (Or.inr (Or.inr (Or.inl rfl)))

/-- Claim C8: both child schemas declare their `userId` reference to
`users.id` with `onDelete: "cascade"`, and consequently deleting any
user from a referentially intact database leaves no session or account
row referencing a non-existent user. -/
theorem c8_cascade_delete_preserves_integrity (db : Db) (uid : String)
    (h : refIntegrity db) :
    sessionsUserIdRef =
      { table := "user", column := "id",
        onDelete := OnDeleteAction.cascade } ∧
    accountsUserIdRef =
      { table := "user", column := "id",
        onDelete := OnDeleteAction.cascade } ∧
    refIntegrity (deleteUser db uid) := by
  refine ⟨rfl, rfl, ?_, ?_⟩
  · intro s hs
    simp only [deleteUser, applyOnDelete, sessionsUserIdRef,
      List.mem_filter, decide_eq_true_eq] at hs
    obtain ⟨hs1, hs2⟩ := hs
    obtain ⟨u, hu, huid⟩ := h.1 s hs1
    refine ⟨u, ?_, huid⟩
    simp only [deleteUser, List.mem_filter, decide_eq_true_eq]
    exact ⟨hu, by rw [huid]; exact hs2⟩
  · intro a ha
    simp only [deleteUser, applyOnDelete, accountsUserIdRef,
      List.mem_filter, decide_eq_true_eq] at ha
    obtain ⟨ha1, ha2⟩ := ha
    obtain ⟨u, hu, huid⟩ := h.2 a ha1
    refine ⟨u, ?_, huid⟩
    simp only [deleteUser, List.mem_filter, decide_eq_true_eq]
    exact ⟨hu, by rw [huid]; exact ha2⟩

/-- Witness for C8 at a concrete input: the sample database is
referentially intact, and deleting its first user keeps it so. -/
theorem c8_cascade_delete_preserves_integrity_witness :
    refIntegrity (deleteUser sampleDb "u1") :=
  (c8_cascade_delete_preserves_integrity sampleDb "u1" (by decide)).2.2

/-- Deleting the key `k` from an object does not disturb `find?` for a
different key `j`. -/
theorem find?_filter_keyNe (l : List (String × JVal)) (j k : String)
    (hjk : j ≠ k) :
    (l.filter (fun p => p.1 ≠ k)).find? (fun p => p.1 = j) =
      l.find? (fun p => p.1 = j) := by
  induction l with
  | nil => rfl
  | cons a t ih =>
    rw [List.filter_cons]
    by_cases ha : a.1 = k
    · have haj : decide (a.1 = j) = false := by
        simp only [decide_eq_false_iff_not]
        exact fun hc => hjk (hc ▸ ha)
      rw [if_neg (by simp [ha])]
      simp only [List.find?_cons, haj, ih]
    · rw [if_pos (by simp [ha])]
      by_cases haj : a.1 = j
      · have h1 : decide (a.1 = j) = true := by simp [haj]
        simp only [List.find?_cons, h1]
      · have h1 : decide (a.1 = j) = false := by simp [haj]
        simp only [List.find?_cons, h1, ih]

/-- After deleting the key `k` from an object, `find?` for `k` fails. -/
theorem find?_filter_keyNe_self (l : List (String × JVal)) (k : String) :
    (l.filter (fun p => p.1 ≠ k)).find? (fun p => p.1 = k) = none := by
  rw [List.find?_eq_none]
  intro x hx
  simp only [decide_eq_true_eq]
  simp only [List.mem_filter] at hx
  simpa using hx.2

/-- Behavior of `find?` over the key-preserving map used by `removePath`. -/
theorem find?_map_keyed (l : List (String × JVal)) (k j : String)
    (g : JVal → JVal) :
    (l.map (fun p => if p.1 = k then (p.1, g p.2) else p)).find?
        (fun p => p.1 = j) =
      (l.find? (fun p => p.1 = j)).map
        (fun p => if p.1 = k then (p.1, g p.2) else p) := by
  induction l with
  | nil => rfl
  | cons a t ih =>
    rw [List.map_cons]
    by_cases haj : a.1 = j
    · have h1 : decide ((if a.1 = k then (a.1, g a.2) else a).1 = j) = true := by
        by_cases hak : a.1 = k
        · rw [if_pos hak]; simpa using haj
        · rw [if_neg hak]; simpa using haj
      have h2 : decide (a.1 = j) = true := by simp [haj]
      simp only [List.find?_cons, h1, h2]
      rfl
    · have h1 : decide ((if a.1 = k then (a.1, g a.2) else a).1 = j) = false := by
        by_cases hak : a.1 = k
        · rw [if_pos hak]; simpa using haj
        · rw [if_neg hak]; simpa using haj
      have h2 : decide (a.1 = j) = false := by simp [haj]
      simp only [List.find?_cons, h1, h2, ih]

/-- A path absent from a record stays absent after any `removePath`. -/
theorem getPath_removePath_of_none (q : List String) :
    ∀ (v : JVal) (p : List String), getPath v p = none →
      getPath (removePath q v) p = none := by
  induction q with
  | nil => intro v p h; exact h
  | cons k q' ih =>
    intro v p h
    cases q' with
    | nil =>
      cases v with
      | jobj fs =>
        cases p with
        | nil => simp [getPath] at h
        | cons j p' =>
          by_cases hj : j = k
          · subst hj
            simp only [removePath, getPath, find?_filter_keyNe_self]
          · simp only [removePath, getPath, find?_filter_keyNe fs j k hj]
            simpa only [getPath] using h
      | jnull => exact h
      | jbool b => exact h
      | jnum n => exact h
      | jstr s => exact h
    | cons k2 rest =>
      cases v with
      | jobj fs =>
        cases p with
        | nil => simp [getPath] at h
        | cons j p' =>
          simp only [removePath, getPath, find?_map_keyed] at h ⊢
          cases hf : fs.find? (fun p => p.1 = j) with
          | none => simp
          | some e =>
            rw [hf] at h
            simp only [hf, Option.map_some']
            simp only [getPath] at h
            have he : e.1 = j := by
              have := List.find?_some hf
              simpa using this
            by_cases hj : j = k
            · subst hj
              simp only [he, if_pos]
              exact ih e.2 p' h
            · have hek : ¬ e.1 = k := fun hc => hj (he ▸ hc)
              simp only [hek, if_neg, if_false]
              exact h
      | jnull => exact h
      | jbool b => exact h
      | jnum n => exact h
      | jstr s => exact h

/-- After `removePath` along a non-empty path, looking that path (or
any extension of it) up fails. -/
theorem getPath_removePath_self (q : List String) :
    ∀ (k : String) (v : JVal) (ext : List String),
      getPath (removePath (k :: q) v) ((k :: q) ++ ext) = none := by
  induction q with
  | nil =>
    intro k v ext
    cases v with
    | jobj fs =>
      simp only [removePath, List.cons_append, List.nil_append, getPath,
        find?_filter_keyNe_self]
    | jnull => rfl
    | jbool b => rfl
    | jnum n => rfl
    | jstr s => rfl
  | cons k2 rest ih =>
    intro k v ext
    cases v with
    | jobj fs =>
      simp only [removePath, List.cons_append, getPath, find?_map_keyed]
      cases hf : fs.find? (fun p => p.1 = k) with
      | none => simp
      | some e =>
        simp only [Option.map_some']
        have he : e.1 = k := by
          have := List.find?_some hf
          simpa using this
        simp only [he, if_pos]
        exact ih k2 e.2 ext
    | jnull => rfl
    | jbool b => rfl
    | jnum n => rfl
    | jstr s => rfl

/-- Disjointness: `removePath` along `q` leaves every path that neither extends `q`
nor is a prefix of `q` unchanged. -/
theorem getPath_removePath_disjoint (q : List String) :
    ∀ (p : List String) (v : JVal), ¬ q <+: p → ¬ p <+: q →
      getPath (removePath q v) p = getPath v p := by
  induction q with
  | nil => intro p v h1 _; exact absurd List.nil_prefix h1
  | cons k q' ih =>
    intro p v h1 h2
    cases p with
    | nil => exact absurd List.nil_prefix h2
    | cons j p' =>
      by_cases hjk : j = k
      · subst hjk
        have h1' : ¬ q' <+: p' := fun hc =>
          h1 (List.cons_prefix_cons.mpr ⟨rfl, hc⟩)
        have h2' : ¬ p' <+: q' := fun hc =>
          h2 (List.cons_prefix_cons.mpr ⟨rfl, hc⟩)
        cases q' with
        | nil => exact absurd List.nil_prefix h1'
        | cons k2 rest =>
          cases v with
          | jobj fs =>
            simp only [removePath, getPath, find?_map_keyed]
            cases hf : fs.find? (fun p => p.1 = j) with
            | none => simp
            | some e =>
              simp only [Option.map_some']
              have he : e.1 = j := by
                have := List.find?_some hf
                simpa using this
              simp only [he, if_pos]
              exact ih p' e.2 h1' h2'
          | jnull => rfl
          | jbool b => rfl
          | jnum n => rfl
          | jstr s => rfl
      · cases q' with
        | nil =>
          cases v with
          | jobj fs =>
            simp only [removePath, getPath, find?_filter_keyNe fs j k hjk]
          | jnull => rfl
          | jbool b => rfl
          | jnum n => rfl
          | jstr s => rfl
        | cons k2 rest =>
          cases v with
          | jobj fs =>
            simp only [removePath, getPath, find?_map_keyed]
            cases hf : fs.find? (fun p => p.1 = j) with
            | none => simp
            | some e =>
              simp only [Option.map_some']
              have he : e.1 = j := by
                have := List.find?_some hf
                simpa using this
              have hek : ¬ e.1 = k := fun hc => hjk (he ▸ hc)
              simp only [hek, if_neg, if_false]
          | jnull => rfl
          | jbool b => rfl
          | jnum n => rfl
          | jstr s => rfl

/-- Absence of a path survives a whole fold of `removePath`s. -/
theorem getPath_foldl_of_none (L : List (List String)) :
    ∀ (v : JVal) (p : List String), getPath v p = none →
      getPath (L.foldl (fun acc q => removePath q acc) v) p = none := by
  induction L with
  | nil => intro v p h; exact h
  | cons q L' ih =>
    intro v p h
    exact ih _ p (getPath_removePath_of_none q v p h)

/-- Every non-empty path of the fold's path list (and any extension of
it) is absent from the folded record. -/
theorem getPath_foldl_mem (L : List (List String)) :
    ∀ (rp : List String), rp ∈ L → rp ≠ [] →
      ∀ (v : JVal) (ext : List String),
        getPath (L.foldl (fun acc q => removePath q acc) v) (rp ++ ext) =
          none := by
  induction L with
  | nil => intro rp hrp; exact absurd hrp (List.not_mem_nil rp)
  | cons q L' ih =>
    intro rp hrp hne v ext
    rcases List.mem_cons.mp hrp with rfl | hmem
    · obtain ⟨k, q', rfl⟩ := List.exists_cons_of_ne_nil hne
      exact getPath_foldl_of_none L' _ _
        (getPath_removePath_self q' k v ext)
    · exact ih rp hmem hne (removePath q v) ext

/-- A path disjoint from every path of the fold's list is unchanged by
the fold. -/
theorem getPath_foldl_disjoint (L : List (List String)) :
    ∀ (p : List String), (∀ q ∈ L, ¬ q <+: p ∧ ¬ p <+: q) →
      ∀ (v : JVal),
        getPath (L.foldl (fun acc q => removePath q acc) v) p =
          getPath v p := by
  induction L with
  | nil => intro p _ v; rfl
  | cons q L' ih =>
    intro p hp v
    rw [List.foldl_cons,
      ih p (fun r hr => hp r (List.mem_cons_of_mem q hr)),
      getPath_removePath_disjoint q p v (hp q (List.mem_cons_self q L')).1
        (hp q (List.mem_cons_self q L')).2]

/-- Claim C7: for every log record, every field at one of the
configured redaction paths (req.headers.authorization,
req.headers.cookie, password, token, apiKey, secret) — and anything
nested below it — is removed before the record is written, while every
field at a path disjoint from all redaction paths is written
unchanged. -/
theorem c7_logger_redacts_configured_paths (v : JVal) (rp : List String)
    (hrp : rp ∈ redactPaths) (ext : List String) (p : List String)
    (hp : ∀ q ∈ redactPaths, ¬ q <+: p ∧ ¬ p <+: q) :
    getPath (redactRecord v) (rp ++ ext) = none ∧
    getPath (redactRecord v) p = getPath v p := by
  have hne : rp ≠ [] := by
    have hall : ∀ q ∈ redactPaths, q ≠ [] := by decide
    exact hall rp hrp
  exact ⟨getPath_foldl_mem redactPaths rp hrp hne v ext,
    getPath_foldl_disjoint redactPaths p hp v⟩

/-- Witness for C7 at a concrete record: the top-level `password` field
is removed while the sibling `msg` field is untouched. -/
theorem c7_logger_redacts_configured_paths_witness :
    getPath
        (redactRecord (JVal.jobj
          [("password", JVal.jstr "hunter2"), ("msg", JVal.jstr "hi")]))
        (["password"] ++ []) = none ∧
    getPath
        (redactRecord (JVal.jobj
          [("password", JVal.jstr "hunter2"), ("msg", JVal.jstr "hi")]))
        ["msg"] =
      getPath
        (JVal.jobj
          [("password", JVal.jstr "hunter2"), ("msg", JVal.jstr "hi")])
        ["msg"] :=
  c7_logger_redacts_configured_paths
    (JVal.jobj [("password", JVal.jstr "hunter2"), ("msg", JVal.jstr "hi")])
    ["password"] (by decide) [] ["msg"] (by decide)

